import Mathlib

/-!
Shallow embedding of the AI-powered todo manager (a TypeScript/Next.js
application) for checking its natural-language specification.

Text is modelled as `List Char` (JavaScript strings are sequences of
characters; all strings appearing here are within the basic plane, where
JavaScript code units and code points coincide).  Instants are modelled as
integer milliseconds (JavaScript `Date.getTime()`), interpreted in the
relevant clock (local or UTC+9) as documented at each definition.  Civil
dates (the YYYY-MM-DD strings exchanged by the application) are modelled
as integer day numbers with day 0 = 1970-01-01 (a Thursday).
-/

namespace TodoApp

/-- Text, modelled as a list of characters. -/
abbrev Str := List Char

/-- Character class of the JavaScript whitespace escape used by the source
regular expressions (space, tab, newline, carriage return, vertical tab,
form feed). -/
def isWs (c : Char) : Bool :=
  c == ' ' || c == '\t' || c == '\n' || c == '\r' || c == '\x0b' || c == '\x0c'

/-- Removal of the leading whitespace run (the left half of `String.prototype.trim`). -/
def trimLeft (l : Str) : Str := l.dropWhile isWs

/-- Removal of the trailing whitespace run (the right half of `String.prototype.trim`). -/
def trimRight : Str → Str
  | [] => []
  | c :: rest =>
    match trimRight rest with
    | [] => if isWs c then [] else [c]
    | d :: t => c :: d :: t

/-- `String.prototype.trim`: drop the leading and the trailing whitespace run. -/
def jsTrim (l : Str) : Str := trimRight (trimLeft l)

/-- Embedding of the global replacement of every maximal whitespace run by a
single space, as performed by the first replacement step of `preprocessInput`
in the generate-todo route (src/unnamed/part_001, line 45).  A whitespace
character followed by further whitespace is dropped; the last character of a
whitespace run becomes the single space. -/
def collapseWs : Str → Str
  | [] => []
  | c :: rest =>
    if isWs c then
      match collapseWs rest with
      | d :: t => if isWs d then d :: t else ' ' :: d :: t
      | [] => [' ']
    else c :: collapseWs rest

/-- Embedding of the global replacement of every maximal newline run by a
single newline, the second replacement step of `preprocessInput`
(src/unnamed/part_001, line 48). -/
def collapseNl : Str → Str
  | [] => []
  | c :: rest =>
    if c == '\n' then
      match collapseNl rest with
      | d :: t => if d == '\n' then d :: t else '\n' :: d :: t
      | [] => ['\n']
    else c :: collapseNl rest

/-- `preprocessInput` (src/unnamed/part_001, lines 40-54): trim, then replace
every whitespace run by one space, then replace every newline run by one
newline.  Letter case is not touched. -/
def preprocessInput (text : Str) : Str :=
  collapseNl (collapseWs (jsTrim text))

/-- The character class of the content-check regular expression
in `validateInput` (src/unnamed/part_001, line 29): Hangul syllable,
Latin letter, or decimal digit. -/
def isValidChar (c : Char) : Bool :=
  decide ('가' ≤ c ∧ c ≤ '힣') || decide ('a' ≤ c ∧ c ≤ 'z') ||
  decide ('A' ≤ c ∧ c ≤ 'Z') || decide ('0' ≤ c ∧ c ≤ '9')

/-- Test of the content-check regular expression against a string: some
character of the string belongs to the class. -/
def hasValidContent (l : Str) : Bool := l.any isValidChar

/-- Error message of validation rule 1 (missing / non-string / empty input). -/
def msgInvalidInput : Str := "유효한 할 일 내용을 입력해주세요.".data

/-- Error message of validation rule 2 (trimmed length below 2). -/
def msgTooShort : Str := "할 일 내용이 너무 짧습니다. 최소 2자 이상 입력해주세요.".data

/-- Error message of validation rule 3 (raw length above 500). -/
def msgTooLong : Str := "할 일 내용이 너무 깁니다. 최대 500자까지 입력 가능합니다.".data

/-- Error message of validation rule 4 (no valid content character). -/
def msgNoValidContent : Str := "할 일 내용에 유효한 문자가 포함되어야 합니다.".data

/-- Result shape of `validateInput`: a validity flag and an optional error
message, mirroring the TypeScript return type. -/
structure ValidationResult where
  valid : Bool
  error : Option Str
  deriving Repr, DecidableEq

/-- `validateInput` (src/unnamed/part_001, lines 10-35).  The argument is
`none` for a missing or non-string `prompt` (both fail the source's
`!text || typeof text !== 'string'` test, as does the empty string, which is
falsy in JavaScript). -/
def validateInput : Option Str → ValidationResult
  | none => ⟨false, some msgInvalidInput⟩
  | some text =>
    if text.isEmpty then ⟨false, some msgInvalidInput⟩
    else
      let trimmed := jsTrim text
      if trimmed.length < 2 then ⟨false, some msgTooShort⟩
      else if text.length > 500 then ⟨false, some msgTooLong⟩
      else if !hasValidContent trimmed then ⟨false, some msgNoValidContent⟩
      else ⟨true, none⟩

/-- Raw model output fed to the repair pass.  The zod schema of the route
only fixes the shape (strings, string arrays); every field is optional here
so that arbitrary raw objects, including the empty object, are covered.
`due_date` carries a civil day number: the route exchanges YYYY-MM-DD
strings, whose date-only comparison in `postprocessTodo` (both sides parsed
and then zeroed to the day start) is exactly comparison of day numbers. -/
structure GeneratedTodo where
  title : Option Str
  description : Option Str
  due_date : Option Int
  due_time : Option Str
  priority : Option Str
  category : Option (List Str)
  deriving Repr, DecidableEq

/-- Fallback title of the repair pass (Korean for "task"). -/
def fallbackTitle : Str := "할 일".data

/-- Ellipsis appended by the title truncation of the repair pass. -/
def ellipsis : Str := "...".data

/-- Default category of the repair pass (Korean for "personal"). -/
def defaultCategory : List Str := ["개인".data]

/-- The three valid priority values. -/
def validPriorities : List Str := ["low".data, "medium".data, "high".data]

/-- Default repaired due time. -/
def defaultDueTime : Str := "09:00".data

/-- Character range test used by the time format check. -/
def charBetween (lo hi c : Char) : Bool := decide (lo ≤ c ∧ c ≤ hi)

/-- The time format regular expression of the repair pass
(src/unnamed/part_001, line 116): two digits 00-23, a colon, two digits
00-59, matching the whole string. -/
def isValidTime : Str → Bool
  | [h1, h2, c, m1, m2] =>
    c == ':' &&
    ((charBetween '0' '1' h1 && charBetween '0' '9' h2) ||
      (h1 == '2' && charBetween '0' '3' h2)) &&
    charBetween '0' '5' m1 && charBetween '0' '9' m2
  | _ => false

/-- Step 1 of `postprocessTodo` (src/unnamed/part_001, lines 62-78): trim
the title, truncate above 100 characters to 97 plus an ellipsis, and replace
a missing, empty or still-too-short title by the fallback.  An empty-string
title is falsy in JavaScript, so it takes the fallback branch. -/
def repairTitle : Option Str → Str
  | some t =>
    if t.isEmpty then fallbackTitle
    else
      let t1 := jsTrim t
      let t2 := if t1.length > 100 then t1.take 97 ++ ellipsis else t1
      if t2.length < 2 then fallbackTitle else t2
  | none => fallbackTitle

/-- Step 2 of `postprocessTodo` (lines 80-87): trim the description and
remove it when the trimmed form is empty.  An already-empty description is
falsy and skips the block unchanged. -/
def repairDescription : Option Str → Option Str
  | some d =>
    if d.isEmpty then some d
    else
      let d1 := jsTrim d
      if d1.isEmpty then none else some d1
  | none => none

/-- Step 3 of `postprocessTodo` (lines 89-101): a due date strictly before
the resolution date is overwritten with the resolution date (both sides
have been zeroed to the start of the day, hence civil day numbers). -/
def repairDueDate : Option Int → Int → Option Int
  | some d, currentDate => if d < currentDate then some currentDate else some d
  | none, _ => none

/-- Step 4 of `postprocessTodo` (lines 103-106): a missing priority or one
outside the three valid values becomes medium. -/
def repairPriority : Option Str → Option Str
  | some p => if p ∈ validPriorities then some p else some "medium".data
  | none => some "medium".data

/-- Step 5 of `postprocessTodo` (lines 108-111): a missing or empty
category array becomes the default. -/
def repairCategory : Option (List Str) → Option (List Str)
  | some c => if c.isEmpty then some defaultCategory else some c
  | none => some defaultCategory

/-- Step 6 of `postprocessTodo` (lines 113-121): a present due time that
fails the HH:mm format is overwritten with the default.  An empty-string
due time is falsy and skips the block unchanged. -/
def repairDueTime : Option Str → Option Str
  | some s =>
    if s.isEmpty then some s
    else if !isValidTime s then some defaultDueTime else some s
  | none => none

/-- `postprocessTodo` (src/unnamed/part_001, lines 59-124); `currentDate` is
the resolution date as a civil day number.  The source mutates the fields of
a copy of its argument in six independent steps; the record of the six step
results above is that copy. -/
def postprocessTodo (todo : GeneratedTodo) (currentDate : Int) : GeneratedTodo :=
  ⟨some (repairTitle todo.title), repairDescription todo.description,
    repairDueDate todo.due_date currentDate, repairDueTime todo.due_time,
    repairPriority todo.priority, repairCategory todo.category⟩

/-- Whether the second string starts with the first. -/
def headMatches : Str → Str → Bool
  | [], _ => true
  | _ :: _, [] => false
  | b :: sub, a :: s => a == b && headMatches sub s

/-- `String.prototype.includes`: the second string occurs contiguously in
the first. -/
def containsStr : Str → Str → Bool
  | [], sub => sub.isEmpty
  | a :: t, sub => headMatches sub (a :: t) || containsStr t sub

/-- A JavaScript error value as inspected by the catch blocks of the two
routes: optional `name`, `message` and `code` fields. -/
structure JsError where
  name : Option Str
  message : Option Str
  code : Option Str
  deriving Repr, DecidableEq

/-- The optional-chained `error?.message?.includes(s)` test. -/
def msgIncludes (e : JsError) (s : Str) : Bool :=
  match e.message with
  | some m => containsStr m s
  | none => false

/-- Condition of the JSON-parse branch of the generate-todo catch block
(src/unnamed/part_001, line 349). -/
def isJsonSyntaxError (e : JsError) : Bool :=
  decide (e.name = some "SyntaxError".data) || msgIncludes e "JSON".data

/-- Condition of the authentication branch (src/unnamed/part_001, line 360). -/
def isAuthFailure (e : JsError) : Bool :=
  msgIncludes e "API key".data || msgIncludes e "authentication".data

/-- Condition of the quota / rate-limit branch (src/unnamed/part_001,
lines 371-375). -/
def isQuotaFailure (e : JsError) : Bool :=
  msgIncludes e "quota".data || msgIncludes e "rate limit".data ||
  msgIncludes e "429".data

/-- Condition of the timeout branch (src/unnamed/part_001, line 386). -/
def isTimeoutFailure (e : JsError) : Bool :=
  msgIncludes e "timeout".data || decide (e.code = some "ETIMEDOUT".data)

/-- Condition of the network branch (src/unnamed/part_001, line 397). -/
def isNetworkFailure (e : JsError) : Bool :=
  decide (e.code = some "ECONNREFUSED".data) ||
  decide (e.code = some "ENOTFOUND".data)

/-- Condition of the model-error branch (src/unnamed/part_001, line 408). -/
def isModelFailure (e : JsError) : Bool :=
  msgIncludes e "model".data || msgIncludes e "gemini".data

/-- An HTTP response of a route: success with a payload (status 200) or an
error status with a user-facing message. -/
inductive ApiResponse (α : Type) where
  | ok (data : α)
  | err (status : Nat) (error : Str)
  deriving Repr, DecidableEq

/-- HTTP status of a response. -/
def statusOf {α : Type} : ApiResponse α → Nat
  | .ok _ => 200
  | .err s _ => s

/-- Error message of the generate-todo JSON-parse branch. -/
def msgBadJson : Str := "요청 데이터 형식이 올바르지 않습니다.".data

/-- Error message of the authentication branch (generate-todo). -/
def msgAuth : Str := "AI 서비스 인증에 실패했습니다. 관리자에게 문의해주세요.".data

/-- Error message of the quota branch (both routes). -/
def msgQuota : Str := "AI 서비스 사용량을 초과했습니다. 잠시 후 다시 시도해주세요.".data

/-- Error message of the timeout branch. -/
def msgTimeout : Str := "요청 시간이 초과되었습니다. 다시 시도해주세요.".data

/-- Error message of the network branch. -/
def msgNetwork : Str := "네트워크 연결에 실패했습니다. 인터넷 연결을 확인해주세요.".data

/-- Error message of the model-error branch. -/
def msgModel : Str := "AI 처리 중 오류가 발생했습니다. 다시 시도해주세요.".data

/-- Error message of the final generic branch of the generate-todo route. -/
def msgGenericGenerate : Str := "할 일 생성 중 오류가 발생했습니다. 잠시 후 다시 시도해주세요.".data

/-- Error message of the missing-API-key check (both routes). -/
def msgMissingConfig : Str := "AI 서비스 설정이 완료되지 않았습니다.".data

/-- Fallback message of the validation 400 response, used when the
validation result carries no message (src/unnamed/part_001, line 168). -/
def msgBadInputFallback : Str := "잘못된 입력입니다.".data

/-- The ordered catch chain of the generate-todo route
(src/unnamed/part_001, lines 345-426): the first matching branch wins. -/
def classifyGenerateError (e : JsError) : ApiResponse GeneratedTodo :=
  if isJsonSyntaxError e then .err 400 msgBadJson
  else if isAuthFailure e then .err 401 msgAuth
  else if isQuotaFailure e then .err 429 msgQuota
  else if isTimeoutFailure e then .err 504 msgTimeout
  else if isNetworkFailure e then .err 503 msgNetwork
  else if isModelFailure e then .err 500 msgModel
  else .err 500 msgGenericGenerate

/-- Service environment of a route: the optional generative-model API key. -/
structure ServiceEnv where
  apiKey : Option Str

/-- `POST /api/ai/generate-todo` (src/unnamed/part_001, lines 156-427).
`prompt?` is the parsed request field (`none` for missing or non-string),
`gw` is the Generative Model Gateway, mapping the preprocessed prompt to a
raw todo or a raised error, and `currentDate` is the resolved civil day.
The second component counts Gateway invocations. -/
def generateTodoPOST (env : ServiceEnv) (prompt? : Option Str)
    (currentDate : Int) (gw : Str → Except JsError GeneratedTodo) :
    ApiResponse GeneratedTodo × Nat :=
  let v := validateInput prompt?
  if v.valid then
    match prompt? with
    | some prompt =>
      let processedPrompt := preprocessInput prompt
      match env.apiKey with
      | none => (.err 500 msgMissingConfig, 0)
      | some _ =>
        match gw processedPrompt with
        | .ok raw => (.ok (postprocessTodo raw currentDate), 1)
        | .error e => (classifyGenerateError e, 1)
    | none => (.err 400 msgBadInputFallback, 0)
  else
    (.err 400 (v.error.getD msgBadInputFallback), 0)

/-! ### The analyze-todos route (src/app/api/ai/analyze-todos/route.ts) -/

/-- A todo record as received by the analyze-todos route.  `due_date` and
`created_date` carry the instant (UTC milliseconds) denoted by the
timestamp string of the request, `none` when the field is missing. -/
structure AnalyzeTodo where
  title : Str
  description : Option Str
  due_date : Option Int
  priority : Str
  category : List Str
  completed : Bool
  created_date : Option Int
  deriving Repr, DecidableEq

/-- Milliseconds per day. -/
def msPerDay : Int := 86400000

/-- Civil day number in UTC+9 of an instant: the route shifts the clock by
nine hours and reads the UTC date of the shifted instant
(src/app/api/ai/analyze-todos/route.ts, lines 81-84). -/
def kstCivilDay (instant : Int) : Int :=
  Int.fdiv (instant + 9 * 3600000) msPerDay

/-- The instant denoted by parsing the route's `currentDate` string
(the UTC+9 civil date in YYYY-MM-DD form): date-only strings parse as UTC
midnight of that civil date. -/
def currentDateInstant (now : Int) : Int := kstCivilDay now * msPerDay

/-- `overdueTodos.length` of the analyze-todos route (lines 110-114): the
incomplete todos with a due date whose parsed instant is strictly before
the parsed `currentDate` instant (a full-timestamp comparison). -/
def overdueCount (todos : List AnalyzeTodo) (now : Int) : Nat :=
  (todos.filter fun t =>
    match t.due_date with
    | some u => !t.completed && decide (u < currentDateInstant now)
    | none => false).length

/-- Modelled from the spec: the civil-date-only overdue rule that §4.4 and
§9 of the specification adopt as the intended behavior ("due date strictly
before today when both are compared as civil dates only").  Stated for
comparison with `overdueCount` above, which embeds the source. -/
def civilOverdueCount (todos : List AnalyzeTodo) (now : Int) : Nat :=
  (todos.filter fun t =>
    match t.due_date with
    | some u => !t.completed && decide (kstCivilDay u < kstCivilDay now)
    | none => false).length

/-- The structured analysis returned by the analyze-todos route. -/
structure TodoAnalysis where
  summary : Str
  urgentTasks : List Str
  insights : List Str
  recommendations : List Str
  deriving Repr, DecidableEq

/-- Canned summary of the empty-list short circuit, `today` period. -/
def emptySummaryToday : Str := "오늘 등록된 할 일이 없습니다.".data

/-- Canned summary of the empty-list short circuit, `week` period. -/
def emptySummaryWeek : Str := "이번 주 등록된 할 일이 없습니다.".data

/-- The two canned insights of the empty-list short circuit. -/
def emptyInsights : List Str :=
  ["아직 할 일을 추가하지 않으셨네요.".data, "새로운 할 일을 추가해보세요!".data]

/-- The two canned recommendations of the empty-list short circuit. -/
def emptyRecommendations : List Str :=
  ["할 일을 추가하여 체계적으로 관리해보세요.".data,
    "AI 생성 기능을 활용하면 더 쉽게 할 일을 만들 수 있습니다.".data]

/-- The canned analysis returned for an empty todo list
(src/app/api/ai/analyze-todos/route.ts, lines 55-65). -/
def cannedEmptyAnalysis (period : Str) : TodoAnalysis :=
  ⟨if period = "today".data then emptySummaryToday else emptySummaryWeek,
    [], emptyInsights, emptyRecommendations⟩

/-- Error message of the malformed-todos check of the analyze route. -/
def msgBadTodos : Str := "유효한 할 일 목록이 필요합니다.".data

/-- Error message of the malformed-period check of the analyze route. -/
def msgBadPeriod : Str := "분석 기간은 'today' 또는 'week'이어야 합니다.".data

/-- Error message of the authentication branch of the analyze catch block. -/
def msgAuthAnalyze : Str := "AI 서비스 인증에 실패했습니다.".data

/-- Error message of the final generic branch of the analyze catch block. -/
def msgGenericAnalyze : Str := "할 일 분석 중 오류가 발생했습니다. 다시 시도해주세요.".data

/-- The ordered catch chain of the analyze-todos route (lines 395-430). -/
def classifyAnalyzeError (e : JsError) : ApiResponse TodoAnalysis :=
  if isAuthFailure e then .err 401 msgAuthAnalyze
  else if isQuotaFailure e then .err 429 msgQuota
  else .err 500 msgGenericAnalyze

/-- `POST /api/ai/analyze-todos` (src/app/api/ai/analyze-todos/route.ts,
lines 27-431).  `todos?` is `none` for a missing or non-array `todos`
field; `period?` is the raw period string (`none` when missing); `now` is
the current instant; `gw` is the Generative Model Gateway receiving the
in-request todo list, the period and the current instant (from which the
route derives every statistic of its prompt).  The second component counts
Gateway invocations. -/
def analyzeTodosPOST (env : ServiceEnv) (todos? : Option (List AnalyzeTodo))
    (period? : Option Str) (now : Int)
    (gw : List AnalyzeTodo → Str → Int → Except JsError TodoAnalysis) :
    ApiResponse TodoAnalysis × Nat :=
  match todos? with
  | none => (.err 400 msgBadTodos, 0)
  | some todos =>
    match period? with
    | none => (.err 400 msgBadPeriod, 0)
    | some period =>
      if !(period = "today".data ∨ period = "week".data) then
        (.err 400 msgBadPeriod, 0)
      else if todos.length = 0 then
        (.ok (cannedEmptyAnalysis period), 0)
      else
        match env.apiKey with
        | none => (.err 500 msgMissingConfig, 0)
        | some _ =>
          match gw todos period now with
          | .ok analysis => (.ok analysis, 1)
          | .error e => (classifyAnalyzeError e, 1)

/-! ### The client-side aggregator (src/unnamed/part_002, TodoSummary) -/

/-- A client todo as consumed by `getWeekTodos` and `getStats`.  `due_date`
and `created_date` carry the instant in local milliseconds denoted by the
stored timestamp string, `none` when absent (the source maps a missing
string to `null` and never counts it). -/
structure Todo where
  title : Str
  completed : Bool
  priority : Str
  due_date : Option Int
  created_date : Option Int
  deriving Repr, DecidableEq

/-- Local midnight of the day of an instant (`setHours(0, 0, 0, 0)`). -/
def dayStart (instant : Int) : Int := Int.fdiv instant msPerDay * msPerDay

/-- JavaScript `Date.prototype.getDay` on local time: 0 = Sunday through
6 = Saturday; day 0 of the epoch is a Thursday. -/
def jsGetDay (instant : Int) : Int := (Int.fdiv instant msPerDay + 4) % 7

/-- Monday of the current week at local midnight, as computed by
`getWeekTodos` (src/unnamed/part_002, lines 67-73): offset -6 days when
today is Sunday, otherwise 1 - currentWeekday days, then zero the time. -/
def weekMonday (now : Int) : Int :=
  let currentDay := jsGetDay now
  let mondayOffset := if currentDay = 0 then (-6 : Int) else 1 - currentDay
  (Int.fdiv now msPerDay + mondayOffset) * msPerDay

/-- Sunday of the current week at local 23:59:59.999, as computed by
`getWeekTodos` (lines 75-77). -/
def weekSunday (now : Int) : Int :=
  weekMonday now + 6 * msPerDay + (msPerDay - 1)

/-- The week-membership test of `getWeekTodos` (lines 79-88): the creation
or due timestamp falls within [Monday, Sunday], both bounds inclusive. -/
def inWeekWindow (now : Int) (t : Todo) : Bool :=
  let monday := weekMonday now
  let sunday := weekSunday now
  (match t.created_date with
    | some c => decide (monday ≤ c) && decide (c ≤ sunday)
    | none => false) ||
  (match t.due_date with
    | some u => decide (monday ≤ u) && decide (u ≤ sunday)
    | none => false)

/-- `getWeekTodos` (src/unnamed/part_002, lines 66-89). -/
def getWeekTodos (now : Int) (todos : List Todo) : List Todo :=
  todos.filter (inWeekWindow now)

/-- JavaScript `Math.round`: nearest integer, halves toward positive
infinity. -/
def jsRound (q : ℚ) : Int := ⌊q + 1 / 2⌋

/-- Result shape of `getStats` (src/unnamed/part_002, lines 94-125). -/
structure Stats where
  total : Nat
  completed : Nat
  incomplete : Nat
  completionRate : Int
  highPriority : List Todo
  mediumPriority : List Todo
  lowPriority : List Todo
  urgent : List Todo
  deriving Repr, DecidableEq

/-- `getStats` (src/unnamed/part_002, lines 94-125): counts, the rounded
completion percentage, per-priority incomplete partitions, and the urgent
set (incomplete, with a due day at or before the current day, both zeroed
to local midnight). -/
def getStats (now : Int) (targetTodos : List Todo) : Stats :=
  let total := targetTodos.length
  let completed := (targetTodos.filter fun t => t.completed).length
  let incomplete := targetTodos.filter fun t => !t.completed
  let completionRate : Int :=
    if total > 0 then jsRound ((completed : ℚ) / (total : ℚ) * 100) else 0
  let highPriority := incomplete.filter fun t => decide (t.priority = "high".data)
  let mediumPriority := incomplete.filter fun t => decide (t.priority = "medium".data)
  let lowPriority := incomplete.filter fun t => decide (t.priority = "low".data)
  let urgent := incomplete.filter fun t =>
    match t.due_date with
    | some u => decide (dayStart u ≤ dayStart now)
    | none => false
  ⟨total, completed, incomplete.length, completionRate,
    highPriority, mediumPriority, lowPriority, urgent⟩


/-! ### Lemmas about the normalization pipeline -/

theorem collapseWs_cons_of_not_ws {c : Char} (rest : Str) (hc : isWs c = false) :
    collapseWs (c :: rest) = c :: collapseWs rest := by
  cases hr : collapseWs rest with
  | nil => simp [collapseWs, hr, hc]
  | cons d t => simp [collapseWs, hr, hc]

theorem collapseWs_cons_ws_nil {c : Char} {rest : Str} (hc : isWs c = true)
    (h : collapseWs rest = []) : collapseWs (c :: rest) = [' '] := by
  simp [collapseWs, h, hc]

theorem collapseWs_cons_ws_cons {c d : Char} {rest t : Str} (hc : isWs c = true)
    (h : collapseWs rest = d :: t) :
    collapseWs (c :: rest) = if isWs d then d :: t else ' ' :: d :: t := by
  simp [collapseWs, h, hc]

theorem collapseNl_cons_of_ne {c : Char} (rest : Str) (hc : (c == '\n') = false) :
    collapseNl (c :: rest) = c :: collapseNl rest := by
  cases hr : collapseNl rest with
  | nil => simp [collapseNl, hr, hc]
  | cons d t => simp [collapseNl, hr, hc]

theorem trimRight_cons (c : Char) (rest : Str) :
    trimRight (c :: rest) =
      if (trimRight rest).isEmpty then (if isWs c then [] else [c])
      else c :: trimRight rest := by
  cases h : trimRight rest with
  | nil => simp [trimRight, h]
  | cons d t => simp [trimRight, h]

theorem newline_not_mem_collapseWs (l : Str) : '\n' ∉ collapseWs l := by
  induction l with
  | nil => simp [collapseWs]
  | cons c rest ih =>
    by_cases hc : isWs c = true
    · cases hr : collapseWs rest with
      | nil =>
        rw [collapseWs_cons_ws_nil hc hr]
        decide
      | cons d t =>
        rw [collapseWs_cons_ws_cons hc hr]
        rw [hr] at ih
        by_cases hd : isWs d = true
        · rw [if_pos hd]
          exact ih
        · rw [if_neg (by simp [hd])]
          intro hm
          rcases List.mem_cons.mp hm with h | h
          · exact absurd h (by decide)
          · exact ih h
    · have hc' : isWs c = false := by simpa using hc
      rw [collapseWs_cons_of_not_ws _ hc']
      intro hm
      rcases List.mem_cons.mp hm with h | h
      · cases h
        exact absurd hc' (by decide)
      · exact ih h

theorem collapseNl_eq_self {l : Str} (h : '\n' ∉ l) : collapseNl l = l := by
  induction l with
  | nil => rfl
  | cons c rest ih =>
    have hc : (c == '\n') = false := by
      apply beq_eq_false_iff_ne.mpr
      intro he
      apply h
      rw [he]
      exact List.mem_cons_self '\n' rest
    have hrest : '\n' ∉ rest := fun hm => h (List.mem_cons_of_mem c hm)
    rw [collapseNl_cons_of_ne rest hc, ih hrest]

theorem collapseWs_idem (l : Str) : collapseWs (collapseWs l) = collapseWs l := by
  induction l with
  | nil => rfl
  | cons c rest ih =>
    by_cases hc : isWs c = true
    · cases hr : collapseWs rest with
      | nil =>
        rw [collapseWs_cons_ws_nil hc hr]
        decide
      | cons d t =>
        rw [collapseWs_cons_ws_cons hc hr]
        rw [hr] at ih
        by_cases hd : isWs d = true
        · rw [if_pos hd]
          exact ih
        · rw [if_neg (by simp [hd])]
          have hd' : isWs d = false := by simpa using hd
          rw [collapseWs_cons_ws_cons (show isWs ' ' = true from rfl) ih,
            if_neg (by simp [hd'])]
    · have hc' : isWs c = false := by simpa using hc
      rw [collapseWs_cons_of_not_ws _ hc', collapseWs_cons_of_not_ws _ hc', ih]

theorem trimRight_append_of_not_ws (m : Str) {c : Char} (hc : isWs c = false) :
    trimRight (m ++ [c]) = m ++ [c] := by
  induction m with
  | nil => simp [trimRight, hc]
  | cons a m' ih =>
    rw [List.cons_append, trimRight_cons, ih]
    have hne : (m' ++ [c]).isEmpty = false := by
      cases m' <;> rfl
    rw [hne, if_neg (by simp)]

theorem collapseWs_append_of_not_ws (l : Str) {c : Char} (hc : isWs c = false) :
    ∃ m, collapseWs (l ++ [c]) = m ++ [c] := by
  induction l with
  | nil =>
    refine ⟨[], ?_⟩
    rw [List.nil_append, collapseWs_cons_of_not_ws _ hc]
    rfl
  | cons a rest ih =>
    obtain ⟨m, hm⟩ := ih
    by_cases ha : isWs a = true
    · cases m with
      | nil =>
        have hm' : collapseWs (rest ++ [c]) = c :: [] := by simpa using hm
        rw [List.cons_append, collapseWs_cons_ws_cons ha hm', if_neg (by simp [hc])]
        exact ⟨[' '], rfl⟩
      | cons e m' =>
        have hm' : collapseWs (rest ++ [c]) = e :: (m' ++ [c]) := by simpa using hm
        by_cases he : isWs e = true
        · rw [List.cons_append, collapseWs_cons_ws_cons ha hm', if_pos he]
          exact ⟨e :: m', rfl⟩
        · rw [List.cons_append, collapseWs_cons_ws_cons ha hm', if_neg (by simp [he])]
          exact ⟨' ' :: e :: m', rfl⟩
    · have ha' : isWs a = false := by simpa using ha
      rw [List.cons_append, collapseWs_cons_of_not_ws _ ha', hm]
      exact ⟨a :: m, rfl⟩

theorem dropWhile_ws_shape (l : Str) :
    l.dropWhile isWs = [] ∨
      ∃ c t, l.dropWhile isWs = c :: t ∧ isWs c = false := by
  induction l with
  | nil => exact Or.inl rfl
  | cons a rest ih =>
    by_cases ha : isWs a = true
    · simpa [List.dropWhile, ha] using ih
    · have ha' : isWs a = false := by simpa using ha
      exact Or.inr ⟨a, rest, by simp [List.dropWhile, ha'], ha'⟩

theorem trimRight_head_shape (c : Char) (rest : Str) :
    trimRight (c :: rest) = [] ∨ ∃ t, trimRight (c :: rest) = c :: t := by
  rw [trimRight_cons]
  by_cases h : (trimRight rest).isEmpty = true
  · by_cases hc : isWs c = true
    · exact Or.inl (by simp [h, hc])
    · exact Or.inr ⟨[], by simp [h, hc]⟩
  · have h' : (trimRight rest).isEmpty = false := by simpa using h
    exact Or.inr ⟨trimRight rest, by simp [h']⟩

theorem trimRight_last_shape (l : Str) :
    trimRight l = [] ∨ ∃ m c, trimRight l = m ++ [c] ∧ isWs c = false := by
  induction l with
  | nil => exact Or.inl rfl
  | cons a rest ih =>
    rw [trimRight_cons]
    rcases ih with h | ⟨m, c, hm, hc⟩
    · have hE : (trimRight rest).isEmpty = true := by simp [h]
      by_cases ha : isWs a = true
      · exact Or.inl (by simp [hE, ha])
      · have ha' : isWs a = false := by simpa using ha
        exact Or.inr ⟨[], a, by simp [hE, ha'], ha'⟩
    · have hE : (trimRight rest).isEmpty = false := by
        rw [hm]
        cases m <;> rfl
      exact Or.inr ⟨a :: m, c, by simp [hE, hm], hc⟩

theorem jsTrim_head_shape (x : Str) :
    jsTrim x = [] ∨ ∃ c t, jsTrim x = c :: t ∧ isWs c = false := by
  rcases dropWhile_ws_shape x with h | ⟨c, t, hct, hc⟩
  · left
    rw [jsTrim, trimLeft, h]
    rfl
  · rw [jsTrim, trimLeft, hct]
    rcases trimRight_head_shape c t with h2 | ⟨t', ht'⟩
    · exact Or.inl h2
    · exact Or.inr ⟨c, t', ht', hc⟩

theorem preprocessInput_fix (x : Str) :
    preprocessInput (preprocessInput x) = preprocessInput x := by
  have hnl : '\n' ∉ collapseWs (jsTrim x) := newline_not_mem_collapseWs _
  have h1 : preprocessInput x = collapseWs (jsTrim x) := collapseNl_eq_self hnl
  have hdrop : (collapseWs (jsTrim x)).dropWhile isWs = collapseWs (jsTrim x) := by
    rcases jsTrim_head_shape x with h | ⟨c, t, hct, hc⟩
    · rw [h]
      rfl
    · rw [hct, collapseWs_cons_of_not_ws _ hc]
      simp [List.dropWhile, hc]
  have htr : trimRight (collapseWs (jsTrim x)) = collapseWs (jsTrim x) := by
    rcases trimRight_last_shape (trimLeft x) with h | ⟨m, c, hm, hc⟩
    · rw [show jsTrim x = [] from h]
      rfl
    · rw [show jsTrim x = m ++ [c] from hm]
      obtain ⟨m', hm'⟩ := collapseWs_append_of_not_ws m hc
      rw [hm', trimRight_append_of_not_ws m' hc]
  rw [h1, preprocessInput, jsTrim, trimLeft, hdrop, htr, collapseWs_idem,
    collapseNl_eq_self hnl]

/-! ### Claims -/

/-- C9: normalization is idempotent: for every valid input x, applying
`preprocessInput` twice gives the same result as applying it once. -/
theorem preprocessInput_idempotent (x : Str)
    (_hx : (validateInput (some x)).valid = true) :
    preprocessInput (preprocessInput x) = preprocessInput x :=
  preprocessInput_fix x

/-- Witness for C9 at the concrete valid input "ab". -/
theorem preprocessInput_idempotent_witness :
    (validateInput (some "ab".data)).valid = true ∧
      preprocessInput (preprocessInput "ab".data) = preprocessInput "ab".data :=
  ⟨by decide, preprocessInput_idempotent "ab".data (by decide)⟩

/-- C5: the claim says an interior newline survives normalization as a
newline.  In the source the first replacement collapses every whitespace
run, newlines included, to a single space, so the newline-collapsing step
never sees a newline: normalizing "a\nb" yields "a b", not "a\nb". -/
theorem preprocessInput_interior_newline_becomes_space :
    preprocessInput "a\nb".data = "a b".data ∧
      preprocessInput "a\nb".data ≠ "a\nb".data ∧
      '\n' ∉ preprocessInput "a\nb".data := by
  refine ⟨by decide, by decide, ?_⟩
  decide

/-- C7: the claim says `overdueCount` compares civil dates only, so a todo
due on the current civil date is never overdue.  The source compares the
parsed due instant with the parsed `currentDate` string (UTC midnight of
the UTC+9 civil date), so a todo due at 00:30 of the current UTC+9 civil
date is counted overdue although its civil due date equals the current
civil date. -/
theorem overdueCount_uses_full_timestamps :
    overdueCount
        [⟨"t".data, none, some (100 * msPerDay - 30600000), "high".data,
          [], false, none⟩] (100 * msPerDay) = 1 ∧
      civilOverdueCount
        [⟨"t".data, none, some (100 * msPerDay - 30600000), "high".data,
          [], false, none⟩] (100 * msPerDay) = 0 ∧
      kstCivilDay (100 * msPerDay - 30600000) = kstCivilDay (100 * msPerDay) := by
  refine ⟨?_, ?_, ?_⟩ <;> decide

/-- C2: a request to the analyze-todos route with an empty todo list and a
valid period returns the fixed canned success response, for every
environment and every Gateway, with zero Gateway invocations. -/
theorem analyzeTodos_emptyList_canned (env : ServiceEnv) (now : Int)
    (gw : List AnalyzeTodo → Str → Int → Except JsError TodoAnalysis)
    (period : Str) (hp : period = "today".data ∨ period = "week".data) :
    analyzeTodosPOST env (some []) (some period) now gw =
      (.ok ⟨if period = "today".data then emptySummaryToday else emptySummaryWeek,
          [], emptyInsights, emptyRecommendations⟩, 0) := by
  rcases hp with h | h <;> subst h <;> rfl

/-- Witness for C2 with the period "today", an absent analysis key and a
Gateway double. -/
theorem analyzeTodos_emptyList_canned_witness :
    analyzeTodosPOST ⟨some "k".data⟩ (some []) (some "today".data) 0
        (fun _ _ _ => Except.error ⟨none, none, none⟩) =
      (.ok ⟨emptySummaryToday, [], emptyInsights, emptyRecommendations⟩, 0) := by
  have h := analyzeTodos_emptyList_canned ⟨some "k".data⟩ 0
      (fun _ _ _ => Except.error ⟨none, none, none⟩) "today".data (Or.inl rfl)
  rw [if_pos rfl] at h
  exact h

/-- C10: in the analyze-todos route the empty-list check precedes the
configuration check: with the API key absent, an empty list and a valid
period still give the canned 200 response, and the missing-configuration
500 response only ever arises for a present, non-empty todo list. -/
theorem analyzeTodos_empty_check_precedes_config :
    (∀ (now : Int) (gw : List AnalyzeTodo → Str → Int → Except JsError TodoAnalysis)
        (period : Str), period = "today".data ∨ period = "week".data →
        analyzeTodosPOST ⟨none⟩ (some []) (some period) now gw =
          (.ok (cannedEmptyAnalysis period), 0)) ∧
    (∀ (env : ServiceEnv) (todos? : Option (List AnalyzeTodo))
        (period? : Option Str) (now : Int)
        (gw : List AnalyzeTodo → Str → Int → Except JsError TodoAnalysis),
        (analyzeTodosPOST env todos? period? now gw).1 =
          ApiResponse.err 500 msgMissingConfig →
        ∃ todos, todos? = some todos ∧ todos ≠ []) := by
  constructor
  · rintro now gw period (h | h) <;> subst h <;> rfl
  · rintro env todos? period? now gw h
    match todos?, period? with
    | none, _ => simp [analyzeTodosPOST] at h
    | some todos, none =>
      refine ⟨todos, rfl, ?_⟩
      intro _
      simp [analyzeTodosPOST, msgBadPeriod, msgMissingConfig] at h
    | some todos, some period =>
      refine ⟨todos, rfl, ?_⟩
      rintro rfl
      by_cases hp : period = "today".data ∨ period = "week".data
      · rcases hp with hp | hp <;> subst hp <;> simp [analyzeTodosPOST] at h
      · obtain ⟨h1, h2⟩ := not_or.mp hp
        simp [analyzeTodosPOST, h1, h2, msgBadPeriod, msgMissingConfig] at h

/-- Witness for C10, exercising the first conjunct with the period "week"
and no API key. -/
theorem analyzeTodos_empty_check_precedes_config_witness :
    analyzeTodosPOST ⟨none⟩ (some []) (some "week".data) 7
        (fun _ _ _ => Except.error ⟨none, none, none⟩) =
      (.ok (cannedEmptyAnalysis "week".data), 0) :=
  analyzeTodos_empty_check_precedes_config.1 7
    (fun _ _ _ => Except.error ⟨none, none, none⟩) "week".data (Or.inr rfl)

theorem getStats_completionRate_def (now : Int) (todos : List Todo) :
    (getStats now todos).completionRate =
      if todos.length > 0 then
        jsRound (((todos.filter fun t => t.completed).length : ℚ) /
          (todos.length : ℚ) * 100)
      else 0 := rfl

/-- C8: the completion rate of the aggregator is the rounded percentage of
completed in-window todos, 0 for an empty window (with no division error:
the computation is total), and in particular 75 for 4 todos of which 3 are
completed. -/
theorem getStats_completionRate_spec (now : Int) (todos : List Todo) :
    ((getStats now todos).completionRate =
      if 0 < todos.length then
        jsRound (100 * ((todos.filter fun t => t.completed).length : ℚ) /
          (todos.length : ℚ))
      else 0) ∧
    (todos.length = 0 → (getStats now todos).completionRate = 0) ∧
    (todos.length = 4 → (todos.filter fun t => t.completed).length = 3 →
      (getStats now todos).completionRate = 75) := by
  refine ⟨?_, ?_, ?_⟩
  · rw [getStats_completionRate_def]
    by_cases h : 0 < todos.length
    · rw [if_pos h, if_pos h]
      congr 1
      ring
    · rw [if_neg h, if_neg h]
  · intro h0
    rw [getStats_completionRate_def, h0]
    rfl
  · intro h4 h3
    rw [getStats_completionRate_def, h4, h3]
    norm_num [jsRound]

/-- Witness for C8 on a concrete four-element list with three completed
todos. -/
theorem getStats_completionRate_spec_witness :
    (getStats 0
      [⟨"a".data, true, "high".data, none, none⟩,
        ⟨"b".data, true, "medium".data, none, none⟩,
        ⟨"c".data, true, "low".data, none, none⟩,
        ⟨"d".data, false, "low".data, none, none⟩]).completionRate = 75 :=
  (getStats_completionRate_spec 0 _).2.2 (by decide) (by decide)

theorem validateInput_valid_iff (t : Str) :
    (validateInput (some t)).valid = true ↔
      2 ≤ (jsTrim t).length ∧ t.length ≤ 500 ∧
        hasValidContent (jsTrim t) = true := by
  show (if t.isEmpty then (⟨false, some msgInvalidInput⟩ : ValidationResult)
      else if (jsTrim t).length < 2 then ⟨false, some msgTooShort⟩
      else if t.length > 500 then ⟨false, some msgTooLong⟩
      else if !hasValidContent (jsTrim t) then ⟨false, some msgNoValidContent⟩
      else ⟨true, none⟩).valid = true ↔ _
  by_cases hE : t.isEmpty = true
  · have ht : t = [] := by simpa using hE
    subst ht
    simp [jsTrim, trimLeft, trimRight]
  · have hE' : t.isEmpty = false := by simpa using hE
    rw [hE']
    simp only [Bool.false_eq_true, if_false]
    by_cases h1 : (jsTrim t).length < 2
    · rw [if_pos h1]
      simp
      omega
    · rw [if_neg h1]
      by_cases h2 : t.length > 500
      · rw [if_pos h2]
        simp
        omega
      · rw [if_neg h2]
        by_cases h3 : hasValidContent (jsTrim t) = true
        · rw [if_neg (by simp [h3])]
          simp [h3]
          omega
        · have h3' : hasValidContent (jsTrim t) = false := by simpa using h3
          rw [if_pos (by simp [h3'])]
          simp [h3']

/-- C4: validation applies its four rules in order with the first failure
winning; validity is equivalent to the conjunction of the trimmed length,
raw length and content rules; "a" is invalid, "ab" is valid, raw length 501
is invalid, and raw length 500 with the other rules satisfied is valid. -/
theorem validateInput_rules (t : Str) :
    ((validateInput (some t)).valid = true ↔
      2 ≤ (jsTrim t).length ∧ t.length ≤ 500 ∧
        hasValidContent (jsTrim t) = true) ∧
    ((validateInput none).valid = false) ∧
    ((validateInput (some "a".data)).valid = false) ∧
    ((validateInput (some "ab".data)).valid = true) ∧
    (t.isEmpty = false → (jsTrim t).length < 2 →
      validateInput (some t) = ⟨false, some msgTooShort⟩) ∧
    (2 ≤ (jsTrim t).length → 500 < t.length →
      validateInput (some t) = ⟨false, some msgTooLong⟩) ∧
    (t.length = 501 → (validateInput (some t)).valid = false) ∧
    (t.length = 500 → 2 ≤ (jsTrim t).length → hasValidContent (jsTrim t) = true →
      (validateInput (some t)).valid = true) := by
  refine ⟨validateInput_valid_iff t, rfl, by decide, by decide, ?_, ?_, ?_, ?_⟩
  · intro hE h1
    show (if t.isEmpty then (⟨false, some msgInvalidInput⟩ : ValidationResult)
        else if (jsTrim t).length < 2 then ⟨false, some msgTooShort⟩
        else if t.length > 500 then ⟨false, some msgTooLong⟩
        else if !hasValidContent (jsTrim t) then ⟨false, some msgNoValidContent⟩
        else ⟨true, none⟩) = _
    rw [hE]
    simp only [Bool.false_eq_true, if_false]
    rw [if_pos h1]
  · intro h1 h2
    have hE : t.isEmpty = false := by
      cases t with
      | nil => simp at h2
      | cons a s => rfl
    show (if t.isEmpty then (⟨false, some msgInvalidInput⟩ : ValidationResult)
        else if (jsTrim t).length < 2 then ⟨false, some msgTooShort⟩
        else if t.length > 500 then ⟨false, some msgTooLong⟩
        else if !hasValidContent (jsTrim t) then ⟨false, some msgNoValidContent⟩
        else ⟨true, none⟩) = _
    rw [hE]
    simp only [Bool.false_eq_true, if_false]
    rw [if_neg (by omega), if_pos (by omega)]
  · intro h501
    cases hv : (validateInput (some t)).valid
    · rfl
    · obtain ⟨-, h500, -⟩ := (validateInput_valid_iff t).mp hv
      omega
  · intro h500 h2 h3
    exact (validateInput_valid_iff t).mpr ⟨h2, by omega, h3⟩

set_option maxRecDepth 100000 in
/-- Witness for C4 at a concrete raw-length-500 input made of 500 letters. -/
theorem validateInput_rules_witness :
    (validateInput (some (List.replicate 500 'a'))).valid = true :=
  (validateInput_rules (List.replicate 500 'a')).2.2.2.2.2.2.2
    (by simp) (by decide) (by decide)

/-- C3: for the generate-todo route, each Gateway failure kind maps to its
documented status through the ordered catch chain — authentication to 401,
quota to 429, timeout to 504, network to 503, model-level to 500 — a
failure matching any of the four non-generic kinds (and not the earlier
JSON-parse rule) never receives 500, and the Gateway is invoked exactly
once (no retry). -/
theorem generateTodo_gateway_status_mapping (e : JsError) (key prompt : Str)
    (currentDate : Int)
    (hv : (validateInput (some prompt)).valid = true) :
    ((generateTodoPOST ⟨some key⟩ (some prompt) currentDate
        (fun _ => Except.error e)).2 = 1) ∧
    ((generateTodoPOST ⟨some key⟩ (some prompt) currentDate
        (fun _ => Except.error e)).1 = classifyGenerateError e) ∧
    (isJsonSyntaxError e = false →
      ((isAuthFailure e = true → statusOf (classifyGenerateError e) = 401) ∧
       (isAuthFailure e = false → isQuotaFailure e = true →
          statusOf (classifyGenerateError e) = 429) ∧
       (isAuthFailure e = false → isQuotaFailure e = false →
          isTimeoutFailure e = true →
          statusOf (classifyGenerateError e) = 504) ∧
       (isAuthFailure e = false → isQuotaFailure e = false →
          isTimeoutFailure e = false → isNetworkFailure e = true →
          statusOf (classifyGenerateError e) = 503) ∧
       (isAuthFailure e = false → isQuotaFailure e = false →
          isTimeoutFailure e = false → isNetworkFailure e = false →
          isModelFailure e = true →
          statusOf (classifyGenerateError e) = 500) ∧
       ((isAuthFailure e = true ∨ isQuotaFailure e = true ∨
          isTimeoutFailure e = true ∨ isNetworkFailure e = true) →
          statusOf (classifyGenerateError e) ≠ 500))) := by
  refine ⟨?_, ?_, ?_⟩
  · simp [generateTodoPOST, hv]
  · simp [generateTodoPOST, hv]
  · intro hj
    refine ⟨?_, ?_, ?_, ?_, ?_, ?_⟩
    · intro h1
      simp [classifyGenerateError, statusOf, hj, h1]
    · intro h1 h2
      simp [classifyGenerateError, statusOf, hj, h1, h2]
    · intro h1 h2 h3
      simp [classifyGenerateError, statusOf, hj, h1, h2, h3]
    · intro h1 h2 h3 h4
      simp [classifyGenerateError, statusOf, hj, h1, h2, h3, h4]
    · intro h1 h2 h3 h4 h5
      simp [classifyGenerateError, statusOf, hj, h1, h2, h3, h4, h5]
    · rintro (h | h | h | h) <;>
        simp only [classifyGenerateError, hj, Bool.false_eq_true, if_false] <;>
        by_cases h1 : isAuthFailure e = true <;>
        by_cases h2 : isQuotaFailure e = true <;>
        by_cases h3 : isTimeoutFailure e = true <;>
        by_cases h4 : isNetworkFailure e = true <;>
        simp_all [statusOf]

/-- Witness for C3 at a concrete authentication failure raised by the
Gateway double. -/
theorem generateTodo_gateway_status_mapping_witness :
    statusOf (generateTodoPOST ⟨some "k".data⟩ (some "ab".data) 0
        (fun _ => Except.error ⟨none, some "authentication failed".data, none⟩)).1
      = 401 := by
  have h := generateTodo_gateway_status_mapping
      ⟨none, some "authentication failed".data, none⟩ "k".data "ab".data 0
      (by decide)
  rw [h.2.1]
  exact ((h.2.2 (by decide)).1 (by decide))

theorem repairTitle_bounds (title? : Option Str) :
    2 ≤ (repairTitle title?).length ∧ (repairTitle title?).length ≤ 100 := by
  cases title? with
  | none => decide
  | some t =>
    simp only [repairTitle]
    by_cases hE : t.isEmpty = true
    · rw [if_pos hE]
      decide
    · rw [if_neg (by simp [hE])]
      by_cases h100 : (jsTrim t).length > 100
      · rw [if_pos h100]
        have hlen : ((jsTrim t).take 97 ++ ellipsis).length = 100 := by
          rw [List.length_append, List.length_take]
          have he : ellipsis.length = 3 := rfl
          omega
        rw [if_neg (by omega)]
        omega
      · rw [if_neg h100]
        by_cases h2 : (jsTrim t).length < 2
        · rw [if_pos h2]
          decide
        · rw [if_neg h2]
          omega

theorem repairTitle_of_long {t : Str} (hE : t.isEmpty = false)
    (h100 : 100 < (jsTrim t).length) :
    repairTitle (some t) = (jsTrim t).take 97 ++ ellipsis := by
  simp only [repairTitle]
  rw [if_neg (by simp [hE]), if_pos (by omega : (jsTrim t).length > 100)]
  have hlen : ((jsTrim t).take 97 ++ ellipsis).length = 100 := by
    rw [List.length_append, List.length_take]
    have he : ellipsis.length = 3 := rfl
    omega
  rw [if_neg (by omega)]

theorem repairTitle_short {t : Str} (h2 : (jsTrim t).length < 2) :
    repairTitle (some t) = fallbackTitle := by
  simp only [repairTitle]
  by_cases hE : t.isEmpty = true
  · rw [if_pos hE]
  · rw [if_neg (by simp [hE])]
    rw [if_neg (show ¬((jsTrim t).length > 100) by omega)]
    rw [if_pos h2]

/-- C1 counterexample: the claim as stated fails on an empty-string due
time.  The empty string is falsy in JavaScript, so the repair block is
skipped: the returned record has a present due_time that does not match
the HH:mm format. -/
theorem postprocessTodo_empty_due_time_counterexample :
    (postprocessTodo
        ⟨some "ab".data, none, none, some [], some "low".data,
          some ["개인".data]⟩ 0).due_time = some [] ∧
      isValidTime [] = false := by decide

/-- C1 (amended): for every raw record and resolution date, the repaired
record has a title of length 2 to 100 (over-long trimmed titles become 97
characters plus an ellipsis, missing or shorter-than-2 titles become the
fallback), a priority among low, medium and high (defaulting to medium), a
non-empty category array (defaulting to the default category), a due date
never strictly before the resolution date (a past one is overwritten with
it), and a due time that, when present and non-empty, matches the HH:mm
format (an invalid non-empty one is overwritten with the default, while an
empty-string one is left unchanged); the function is total, so no input
makes it raise. -/
theorem postprocessTodo_repair_invariants (todo : GeneratedTodo)
    (currentDate : Int) :
    (∃ s, (postprocessTodo todo currentDate).title = some s ∧
        2 ≤ s.length ∧ s.length ≤ 100) ∧
    (∀ t, todo.title = some t → t.isEmpty = false → 100 < (jsTrim t).length →
        (postprocessTodo todo currentDate).title =
          some ((jsTrim t).take 97 ++ ellipsis)) ∧
    (todo.title = none →
        (postprocessTodo todo currentDate).title = some fallbackTitle) ∧
    (∀ t, todo.title = some t → (jsTrim t).length < 2 →
        (postprocessTodo todo currentDate).title = some fallbackTitle) ∧
    (∃ p, (postprocessTodo todo currentDate).priority = some p ∧
        p ∈ validPriorities) ∧
    ((todo.priority = none ∨
        ∃ p, todo.priority = some p ∧ p ∉ validPriorities) →
        (postprocessTodo todo currentDate).priority = some "medium".data) ∧
    (∃ c, (postprocessTodo todo currentDate).category = some c ∧ c ≠ []) ∧
    ((todo.category = none ∨ todo.category = some []) →
        (postprocessTodo todo currentDate).category = some defaultCategory) ∧
    (∀ d, (postprocessTodo todo currentDate).due_date = some d →
        currentDate ≤ d) ∧
    (∀ d, todo.due_date = some d → d < currentDate →
        (postprocessTodo todo currentDate).due_date = some currentDate) ∧
    (∀ s, (postprocessTodo todo currentDate).due_time = some s → s ≠ [] →
        isValidTime s = true) ∧
    (∀ s, todo.due_time = some s → s ≠ [] → isValidTime s = false →
        (postprocessTodo todo currentDate).due_time = some defaultDueTime) ∧
    (todo.due_time = some [] →
        (postprocessTodo todo currentDate).due_time = some []) := by
  have htitle : (postprocessTodo todo currentDate).title =
      some (repairTitle todo.title) := rfl
  have hprio : (postprocessTodo todo currentDate).priority =
      repairPriority todo.priority := rfl
  have hcat : (postprocessTodo todo currentDate).category =
      repairCategory todo.category := rfl
  have hdue : (postprocessTodo todo currentDate).due_date =
      repairDueDate todo.due_date currentDate := rfl
  have htime : (postprocessTodo todo currentDate).due_time =
      repairDueTime todo.due_time := rfl
  refine ⟨?_, ?_, ?_, ?_, ?_, ?_, ?_, ?_, ?_, ?_, ?_, ?_, ?_⟩
  · obtain ⟨hb1, hb2⟩ := repairTitle_bounds todo.title
    exact ⟨repairTitle todo.title, htitle, hb1, hb2⟩
  · intro t ht hE h100
    rw [htitle, ht, repairTitle_of_long hE h100]
  · intro h
    rw [htitle, h]
    rfl
  · intro t ht h2
    rw [htitle, ht, repairTitle_short h2]
  · rw [hprio]
    cases hp : todo.priority with
    | none => exact ⟨"medium".data, rfl, by decide⟩
    | some p =>
      by_cases hm : p ∈ validPriorities
      · exact ⟨p, by simp [repairPriority, hm], hm⟩
      · exact ⟨"medium".data, by simp [repairPriority, hm], by decide⟩
  · rintro (h | ⟨p, hp, hnp⟩) <;> rw [hprio]
    · rw [h]
      rfl
    · rw [hp]
      simp [repairPriority, hnp]
  · rw [hcat]
    cases hcc : todo.category with
    | none => exact ⟨defaultCategory, rfl, by decide⟩
    | some c =>
      by_cases hce : c.isEmpty = true
      · exact ⟨defaultCategory, by simp [repairCategory, hce], by decide⟩
      · refine ⟨c, by simp [repairCategory, hce], ?_⟩
        cases c with
        | nil => simp at hce
        | cons a t => simp
  · rintro (h | h) <;> rw [hcat, h] <;> rfl
  · intro d hd
    rw [hdue] at hd
    cases hdd : todo.due_date with
    | none => rw [hdd] at hd; simp [repairDueDate] at hd
    | some v =>
      rw [hdd] at hd
      by_cases hlt : v < currentDate
      · simp [repairDueDate, hlt] at hd
        omega
      · simp [repairDueDate, hlt] at hd
        omega
  · intro d hd hlt
    rw [hdue, hd]
    simp [repairDueDate, hlt]
  · intro s hs hne
    rw [htime] at hs
    cases ht : todo.due_time with
    | none => rw [ht] at hs; simp [repairDueTime] at hs
    | some u =>
      rw [ht] at hs
      by_cases hu : u.isEmpty = true
      · rw [show u = [] from by simpa using hu] at hs
        simp [repairDueTime] at hs
        exact absurd hs hne
      · by_cases hvt : isValidTime u = true
        · simp [repairDueTime, hu, hvt] at hs
          rw [← hs]
          exact hvt
        · simp [repairDueTime, hu, hvt] at hs
          rw [← hs]
          decide
  · intro s hs hne hbad
    have hsE : s.isEmpty = false := by
      cases s with
      | nil => exact absurd rfl hne
      | cons a t => rfl
    rw [htime, hs]
    simp [repairDueTime, hsE, hbad]
  · intro h
    rw [htime, h]
    rfl

set_option maxRecDepth 100000 in
/-- Witness for C1 at a record with a 101-character title, a past due date,
an invalid priority and an invalid due time, resolved on day 3. -/
theorem postprocessTodo_repair_invariants_witness :
    (postprocessTodo
        ⟨some (List.replicate 101 'a'), none, some (-5), some "25:99".data,
          some "urgent".data, some []⟩ 3).title =
      some ((jsTrim (List.replicate 101 'a')).take 97 ++ ellipsis) ∧
    (postprocessTodo
        ⟨some (List.replicate 101 'a'), none, some (-5), some "25:99".data,
          some "urgent".data, some []⟩ 3).due_date = some 3 ∧
    (postprocessTodo
        ⟨some (List.replicate 101 'a'), none, some (-5), some "25:99".data,
          some "urgent".data, some []⟩ 3).due_time = some defaultDueTime := by
  have h := postprocessTodo_repair_invariants
      ⟨some (List.replicate 101 'a'), none, some (-5), some "25:99".data,
        some "urgent".data, some []⟩ 3
  refine ⟨?_, ?_, ?_⟩
  · exact h.2.1 _ rfl (by decide) (by decide)
  · exact h.2.2.2.2.2.2.2.2.2.1 _ rfl (by decide)
  · exact h.2.2.2.2.2.2.2.2.2.2.2.1 _ rfl (by decide) (by decide)

/-- C6: the week aggregation window starts at the Monday of the current
week at local midnight (six days prior when today is Sunday, otherwise
offset by 1 - currentWeekday days) and ends at the following Sunday at
local 23:59:59.999, both bounds inclusive; a todo is in-window exactly when
its creation or due timestamp falls within the range, so a todo due exactly
at Sunday 23:59:59.999 is included and one due at next Monday 00:00:00.001
(with no in-window creation date) is excluded. -/
theorem getWeekTodos_window_spec (now : Int) :
    (weekMonday now % msPerDay = 0) ∧
    ((Int.fdiv (weekMonday now) msPerDay + 4) % 7 = 1) ∧
    (jsGetDay now = 0 →
      weekMonday now = (Int.fdiv now msPerDay - 6) * msPerDay) ∧
    (jsGetDay now ≠ 0 →
      weekMonday now = (Int.fdiv now msPerDay + (1 - jsGetDay now)) * msPerDay) ∧
    (weekSunday now = weekMonday now + 7 * 86400000 - 1) ∧
    (∀ (todos : List Todo) (t : Todo),
      t ∈ getWeekTodos now todos ↔ t ∈ todos ∧ inWeekWindow now t = true) ∧
    (∀ t : Todo, inWeekWindow now t = true ↔
      (∃ c, t.created_date = some c ∧ weekMonday now ≤ c ∧ c ≤ weekSunday now) ∨
      (∃ u, t.due_date = some u ∧ weekMonday now ≤ u ∧ u ≤ weekSunday now)) ∧
    (∀ t : Todo, t.due_date = some (weekSunday now) → inWeekWindow now t = true) ∧
    (∀ t : Todo, t.created_date = none →
      t.due_date = some (weekMonday now + 7 * msPerDay + 1) →
      inWeekWindow now t = false) := by
  have hdval : msPerDay = 86400000 := rfl
  have hmon : weekMonday now =
      (Int.fdiv now msPerDay +
        (if (Int.fdiv now msPerDay + 4) % 7 = 0 then -6
          else 1 - (Int.fdiv now msPerDay + 4) % 7)) * msPerDay := rfl
  have hgd : jsGetDay now = (Int.fdiv now msPerDay + 4) % 7 := rfl
  have hsun : weekSunday now = weekMonday now + 6 * msPerDay + (msPerDay - 1) := rfl
  have hfd : ∀ k : Int, Int.fdiv (k * msPerDay) msPerDay = k := by
    intro k
    rw [Int.fdiv_eq_ediv _ (by rw [hdval]; omega)]
    exact Int.mul_ediv_cancel k (by rw [hdval]; omega)
  have hiff : ∀ t : Todo, inWeekWindow now t = true ↔
      (∃ c, t.created_date = some c ∧ weekMonday now ≤ c ∧ c ≤ weekSunday now) ∨
      (∃ u, t.due_date = some u ∧ weekMonday now ≤ u ∧ u ≤ weekSunday now) := by
    intro t
    rw [inWeekWindow]
    cases hcd : t.created_date <;> cases hdd : t.due_date <;> simp
  refine ⟨?_, ?_, ?_, ?_, ?_, ?_, hiff, ?_, ?_⟩
  · rw [hmon]
    exact Int.mul_emod_left _ _
  · rw [hmon, hfd]
    by_cases h0 : (Int.fdiv now msPerDay + 4) % 7 = 0
    · rw [if_pos h0]
      omega
    · rw [if_neg h0]
      omega
  · intro h
    rw [hgd] at h
    rw [hmon, if_pos h]
    ring
  · intro h
    rw [hgd] at h
    rw [hmon, if_neg h, hgd]
  · rw [hsun, hdval]
    ring
  · intro todos t
    simp [getWeekTodos, List.mem_filter]
  · intro t hdd
    rw [hiff t]
    refine Or.inr ⟨weekSunday now, hdd, ?_, le_refl _⟩
    rw [hsun, hdval]
    omega
  · intro t hcd hdd
    cases hb : inWeekWindow now t with
    | false => rfl
    | true =>
      exfalso
      rcases (hiff t).mp hb with ⟨c, hc, -, -⟩ | ⟨u, hu, -, h2⟩
      · rw [hcd] at hc
        exact Option.noConfusion hc
      · rw [hdd] at hu
        have huu : u = weekMonday now + 7 * msPerDay + 1 := by
          injection hu.symm
        rw [huu, hsun, hdval] at h2
        omega

/-- Witness for C6 at a Sunday instant (local day 3 of the epoch, which is
a Sunday since day 0 is a Thursday). -/
theorem getWeekTodos_window_spec_witness :
    weekMonday (3 * msPerDay + 123) =
      (Int.fdiv (3 * msPerDay + 123) msPerDay - 6) * msPerDay :=
  (getWeekTodos_window_spec (3 * msPerDay + 123)).2.2.1 (by decide)

end TodoApp
